import Mathlib

/-!
Shallow embedding of `wasmer-ios/src/lib.rs`: a C-callable wrapper that
validates a WebAssembly binary, decodes C-string arguments, binds stdio
file descriptors, instantiates the module through an interpreter, calls
its `_start` or `main` export and converts the outcome to an exit code.

External collaborators (the interpreter, the WASI environment, `libc`)
are modelled by a `World` record of oracles; every step the Rust code
takes is mirrored by a Lean function over that record, and the calls the
code makes into the outside world are recorded in an `Event` trace.
-/

/-- Byte strings (contents of C strings and of the wasm binary). -/
abbrev Bytes := List Nat

/-- Kind of a module export, as distinguished by `exports.get_function`:
either a function or some other extern (global, memory, table). -/
inductive ExportKind
  | func
  | nonfunc
deriving DecidableEq, Repr

/-- `wasmer::Value`: the code only ever inspects the `I32` case, so other
cases keep just enough structure to be told apart. -/
inductive WValue
  | i32 (v : Int)
  | i64 (v : Int)
  | f32
  | f64
  | other
deriving DecidableEq, Repr

/-- Outcome of calling an exported function: normal return with results,
or a runtime trap carrying `e.to_string()` and `e.trace()`. -/
inductive CallOutcome
  | ok (results : List WValue)
  | trap (msg : String) (trace : List String)
deriving DecidableEq, Repr

/-- Observable actions of the Rust code: calls into the interpreter and
libc, and each `eprintln!` diagnostic line. -/
inductive Event
  | moduleNew
  | dup (fd : Int)
  | callStart
  | callMain
  | logNull
  | logBoundaryErr (e : String)
  | logTrapHeader (isStart : Bool)
  | logTrapMsg (m : String)
  | logTrapDebug (m : String)
  | logTraceHeader
  | logFrame (f : String)
  | logNoEntry
  | logExportsHeader
  | logExport (n : String)
deriving DecidableEq, Repr

/-- Oracles for everything outside this file's code: the tokio runtime
build, `libc::dup`, the process environment, and the interpreter calls
(`Module::new`, builder finalize, imports, instantiation, WASI init,
the module's exports and what calling them does). -/
structure World where
  rtBuild : Except String Unit
  dupFd : Int → Int
  envVars : List (String × String)
  moduleOk : Except String Unit
  finalizeOk : Except String Unit
  importsOk : Except String Unit
  instantiateOk : Except String Unit
  initOk : Except String Unit
  exports : List (String × ExportKind)
  startOutcome : CallOutcome
  mainOutcome : CallOutcome

/-- `instance.exports.get_function name` succeeds iff the first export
with that name is a function. -/
def getFunction (exps : List (String × ExportKind)) (name : String) : Bool :=
  match exps.find? (fun p => p.1 == name) with
  | some (_, ExportKind.func) => true
  | _ => false

/-- `FsError` (only the variant this code produces). -/
inductive FsError
  | PermissionDenied
deriving DecidableEq, Repr

/-- `std::task::Poll`. -/
inductive Poll (α : Type)
  | Ready (v : α)
  | Pending
deriving DecidableEq, Repr

/-- `FdFile`: owns the file descriptor returned by `libc::dup`. -/
structure FdFile where
  fd : Int
deriving DecidableEq, Repr

/-- `FdFile::new`: duplicate the descriptor; a negative `dup` result is a
host OS error. -/
def FdFile.new (w : World) (fd : Int) : Except Unit FdFile :=
  let dup_fd := w.dupFd fd
  if dup_fd < 0 then Except.error () else Except.ok ⟨dup_fd⟩

def FdFile.last_accessed (_ : FdFile) : Nat := 0

def FdFile.last_modified (_ : FdFile) : Nat := 0

def FdFile.created_time (_ : FdFile) : Nat := 0

def FdFile.size (_ : FdFile) : Nat := 0

/-- `set_len` takes `&mut self` but only returns the error, leaving the
state unchanged. -/
def FdFile.set_len (f : FdFile) (_new_size : Nat) : FdFile × Except FsError Unit :=
  (f, Except.error FsError.PermissionDenied)

/-- `unlink` is a no-op success. -/
def FdFile.unlink (f : FdFile) : FdFile × Except FsError Unit :=
  (f, Except.ok ())

def FdFile.poll_read_ready (_ : FdFile) : Poll (Except Unit Nat) :=
  Poll.Ready (Except.ok 1)

def FdFile.poll_write_ready (_ : FdFile) : Poll (Except Unit Nat) :=
  Poll.Ready (Except.ok 1)

/-- Continuation byte `0x80..=0xBF`. -/
def isCont (b : Nat) : Bool := 0x80 ≤ b && b ≤ 0xBF

/-- UTF-8 validity exactly as `str::from_utf8` checks it (the encoding
scheme of RFC 3629: shortest forms, no surrogates, max U+10FFFF). -/
def validUtf8 : List Nat → Bool
  | [] => true
  | b :: rest =>
    if b ≤ 0x7F then validUtf8 rest
    else if 0xC2 ≤ b && b ≤ 0xDF then
      match rest with
      | b1 :: r => isCont b1 && validUtf8 r
      | [] => false
    else if b = 0xE0 then
      match rest with
      | b1 :: b2 :: r => (0xA0 ≤ b1 && b1 ≤ 0xBF) && isCont b2 && validUtf8 r
      | _ => false
    else if (0xE1 ≤ b && b ≤ 0xEC) || b = 0xEE || b = 0xEF then
      match rest with
      | b1 :: b2 :: r => isCont b1 && isCont b2 && validUtf8 r
      | _ => false
    else if b = 0xED then
      match rest with
      | b1 :: b2 :: r => (0x80 ≤ b1 && b1 ≤ 0x9F) && isCont b2 && validUtf8 r
      | _ => false
    else if b = 0xF0 then
      match rest with
      | b1 :: b2 :: b3 :: r => (0x90 ≤ b1 && b1 ≤ 0xBF) && isCont b2 && isCont b3 && validUtf8 r
      | _ => false
    else if 0xF1 ≤ b && b ≤ 0xF3 then
      match rest with
      | b1 :: b2 :: b3 :: r => isCont b1 && isCont b2 && isCont b3 && validUtf8 r
      | _ => false
    else if b = 0xF4 then
      match rest with
      | b1 :: b2 :: b3 :: r => (0x80 ≤ b1 && b1 ≤ 0x8F) && isCont b2 && isCont b3 && validUtf8 r
      | _ => false
    else false

/-- Substring occurrence (Rust `str::contains(&str)`). -/
def listHasInfix (needle : List Char) : List Char → Bool
  | [] => needle.isEmpty
  | c :: rest => needle.isPrefixOf (c :: rest) || listHasInfix needle rest

/-- `extract_exit_code`: `Some(0)` when the trap message contains
`"exit"`, `None` otherwise. -/
def extract_exit_code (error_msg : String) : Option Int :=
  if listHasInfix "exit".data error_msg.data then some 0 else none

/-- `WasiEnvBuilder` state: program name, arguments (a Rust `String` is
kept as its UTF-8 bytes), environment pairs, and the three optional
stdio overrides. -/
structure WasiEnvBuilder where
  progName : String
  args : List Bytes
  envs : List (String × String)
  stdinB : Option FdFile
  stdoutB : Option FdFile
  stderrB : Option FdFile
deriving DecidableEq, Repr

def WasiEnvBuilder.new (name : String) : WasiEnvBuilder :=
  ⟨name, [], [], none, none, none⟩

def WasiEnvBuilder.arg (b : WasiEnvBuilder) (a : Bytes) : WasiEnvBuilder :=
  { b with args := b.args ++ [a] }

def WasiEnvBuilder.env (b : WasiEnvBuilder) (k v : String) : WasiEnvBuilder :=
  { b with envs := b.envs ++ [(k, v)] }

/-- `if stdin_fd >= 0 { if let Ok(stdin) = FdFile::new(stdin_fd) { .. stdin(..) } }`;
the `dup` syscall happens exactly when the guard is taken. -/
def bindStdin (w : World) (b : WasiEnvBuilder) (fd : Int) : WasiEnvBuilder × List Event :=
  if 0 ≤ fd then
    match FdFile.new w fd with
    | Except.ok f => ({ b with stdinB := some f }, [Event.dup fd])
    | Except.error _ => (b, [Event.dup fd])
  else (b, [])

/-- Same for `stdout_fd`. -/
def bindStdout (w : World) (b : WasiEnvBuilder) (fd : Int) : WasiEnvBuilder × List Event :=
  if 0 ≤ fd then
    match FdFile.new w fd with
    | Except.ok f => ({ b with stdoutB := some f }, [Event.dup fd])
    | Except.error _ => (b, [Event.dup fd])
  else (b, [])

/-- Same for `stderr_fd`. -/
def bindStderr (w : World) (b : WasiEnvBuilder) (fd : Int) : WasiEnvBuilder × List Event :=
  if 0 ≤ fd then
    match FdFile.new w fd with
    | Except.ok f => ({ b with stderrB := some f }, [Event.dup fd])
    | Except.error _ => (b, [Event.dup fd])
  else (b, [])

/-- The session-building block of `execute_wasm_async`: builder `"wasmer"`,
then each argument in order, then the environment snapshot in order, then
the three stdio bindings. -/
def buildSession (w : World) (args : List Bytes) (stdin_fd stdout_fd stderr_fd : Int) :
    WasiEnvBuilder × List Event :=
  let b0 := WasiEnvBuilder.new "wasmer"
  let b1 := args.foldl WasiEnvBuilder.arg b0
  let b2 := w.envVars.foldl (fun b kv => b.env kv.1 kv.2) b1
  let r1 := bindStdin w b2 stdin_fd
  let r2 := bindStdout w r1.1 stdout_fd
  let r3 := bindStderr w r2.1 stderr_fd
  (r3.1, r1.2 ++ r2.2 ++ r3.2)

/-- Entry-point dispatch of `execute_wasm_async`: try `_start`, else
`main`, else report the exports and return `-1`. -/
def runEntry (w : World) : Int × List Event :=
  if getFunction w.exports "_start" then
    match w.startOutcome with
    | CallOutcome.ok _ => (0, [Event.callStart])
    | CallOutcome.trap msg tr =>
      match extract_exit_code msg with
      | some code => (code, [Event.callStart])
      | none =>
        let base := [Event.callStart, Event.logTrapHeader true,
          Event.logTrapMsg msg, Event.logTrapDebug msg]
        (1, if tr.isEmpty then base
            else base ++ [Event.logTraceHeader] ++ tr.map Event.logFrame)
  else if getFunction w.exports "main" then
    match w.mainOutcome with
    | CallOutcome.ok results =>
      let code : Int :=
        match results.head? with
        | some (WValue.i32 c) => c
        | _ => 0
      (code, [Event.callMain])
    | CallOutcome.trap msg tr =>
      let base := [Event.callMain, Event.logTrapHeader false,
        Event.logTrapMsg msg, Event.logTrapDebug msg]
      (1, if tr.isEmpty then base
          else base ++ [Event.logTraceHeader] ++ tr.map Event.logFrame)
  else
    (-1, [Event.logNoEntry, Event.logExportsHeader] ++
      w.exports.map (fun p => Event.logExport p.1))

/-- `execute_wasm_async`: size check, magic check, version check,
`Module::new`, session build, finalize, imports, instantiation, WASI
init, then entry dispatch. -/
def execute_wasm_async (w : World) (wasm_bytes : Bytes) (args : List Bytes)
    (stdin_fd stdout_fd stderr_fd : Int) : Except String Int × List Event :=
  if wasm_bytes.length < 8 then
    (Except.error "Invalid WASM binary: too small", [])
  else if wasm_bytes.take 4 ≠ [0x00, 0x61, 0x73, 0x6D] then
    (Except.error "Invalid WASM binary: missing magic number", [])
  else if (wasm_bytes.drop 4).take 4 ≠ [0x01, 0x00, 0x00, 0x00] then
    (Except.error "Invalid WASM binary: unsupported version", [])
  else
    match w.moduleOk with
    | Except.error e => (Except.error e, [Event.moduleNew])
    | Except.ok _ =>
      let evB := (buildSession w args stdin_fd stdout_fd stderr_fd).2
      let evs0 := Event.moduleNew :: evB
      match w.finalizeOk with
      | Except.error e => (Except.error e, evs0)
      | Except.ok _ =>
        match w.importsOk with
        | Except.error e => (Except.error e, evs0)
        | Except.ok _ =>
          match w.instantiateOk with
          | Except.error e => (Except.error e, evs0)
          | Except.ok _ =>
            match w.initOk with
            | Except.error e => (Except.error e, evs0)
            | Except.ok _ =>
              (Except.ok (runEntry w).1, evs0 ++ (runEntry w).2)

/-- `execute_wasm`: build the tokio runtime, then block on the async
body. -/
def execute_wasm (w : World) (wasm_bytes : Bytes) (args : List Bytes)
    (stdin_fd stdout_fd stderr_fd : Int) : Except String Int × List Event :=
  match w.rtBuild with
  | Except.error e => (Except.error e, [])
  | Except.ok _ => execute_wasm_async w wasm_bytes args stdin_fd stdout_fd stderr_fd

/-- Decoding of one argument slot: a null pointer yields nothing, a
non-null pointer yields its bytes iff they are valid UTF-8
(`CStr::from_ptr(p).to_str()`). -/
def decodeEntry (a : Option Bytes) : Option Bytes :=
  match a with
  | none => none
  | some bs => if validUtf8 bs then some bs else none

/-- The argument-collection loop of `wasmer_execute`. -/
def decodeArgs (argv : List (Option Bytes)) : List Bytes :=
  argv.filterMap decodeEntry

/-- `wasmer_execute`: a null binary pointer or a null argument-array
pointer is rejected up front; otherwise decode arguments, run, and map
an internal error to `-1` with a diagnostic. A pointer argument is
modelled as `none` when null, and as the pointed-to data otherwise. -/
def wasmer_execute (w : World) (wasm_bytes : Option Bytes)
    (argv : Option (List (Option Bytes))) (stdin_fd stdout_fd stderr_fd : Int) :
    Int × List Event :=
  match wasm_bytes, argv with
  | none, _ => (-1, [Event.logNull])
  | _, none => (-1, [Event.logNull])
  | some bytes, some entries =>
    let args := decodeArgs entries
    match execute_wasm w bytes args stdin_fd stdout_fd stderr_fd with
    | (Except.ok code, evs) => (code, evs)
    | (Except.error e, evs) => (-1, evs ++ [Event.logBoundaryErr e])

/-- `wasmer_python_execute` forwards to `wasmer_execute` unchanged. -/
def wasmer_python_execute (w : World) (wasm_bytes : Option Bytes)
    (argv : Option (List (Option Bytes))) (stdin_fd stdout_fd stderr_fd : Int) :
    Int × List Event :=
  wasmer_execute w wasm_bytes argv stdin_fd stdout_fd stderr_fd

/-- The 8-byte prefix every accepted binary must carry. -/
def wasmHeader : Bytes := [0x00, 0x61, 0x73, 0x6D, 0x01, 0x00, 0x00, 0x00]

/-- The three header checks of `execute_wasm_async`, as one predicate. -/
def headerOk (b : Bytes) : Bool :=
  decide (8 ≤ b.length) && b.take 4 == [0x00, 0x61, 0x73, 0x6D]
    && (b.drop 4).take 4 == [0x01, 0x00, 0x00, 0x00]

/-- All stages up to the entry-point call succeed. -/
def pipelineOk (w : World) : Prop :=
  w.rtBuild = Except.ok () ∧ w.moduleOk = Except.ok () ∧
  w.finalizeOk = Except.ok () ∧ w.importsOk = Except.ok () ∧
  w.instantiateOk = Except.ok () ∧ w.initOk = Except.ok ()

/-- A fully successful world used to instantiate universally quantified
theorems at concrete inputs. -/
def baseWorld : World where
  rtBuild := Except.ok ()
  dupFd := fun _ => 7
  envVars := []
  moduleOk := Except.ok ()
  finalizeOk := Except.ok ()
  importsOk := Except.ok ()
  instantiateOk := Except.ok ()
  initOk := Except.ok ()
  exports := [("_start", ExportKind.func)]
  startOutcome := CallOutcome.ok []
  mainOutcome := CallOutcome.ok []

/-- The stdio override that the binding block leaves behind for one
descriptor: none when the descriptor is negative or duplication fails. -/
def fdResult (w : World) (fd : Int) : Option FdFile :=
  if 0 ≤ fd then
    match FdFile.new w fd with
    | Except.ok f => some f
    | Except.error _ => none
  else none

theorem foldl_arg_fields (l : List Bytes) (b : WasiEnvBuilder) :
    (l.foldl WasiEnvBuilder.arg b).args = b.args ++ l ∧
    (l.foldl WasiEnvBuilder.arg b).stdinB = b.stdinB ∧
    (l.foldl WasiEnvBuilder.arg b).stdoutB = b.stdoutB ∧
    (l.foldl WasiEnvBuilder.arg b).stderrB = b.stderrB := by
  induction l generalizing b with
  | nil => simp
  | cons x xs ih =>
    simp only [List.foldl_cons]
    rcases ih (b.arg x) with ⟨h1, h2, h3, h4⟩
    refine ⟨?_, ?_, ?_, ?_⟩
    · rw [h1]; simp [WasiEnvBuilder.arg]
    · rw [h2]; simp [WasiEnvBuilder.arg]
    · rw [h3]; simp [WasiEnvBuilder.arg]
    · rw [h4]; simp [WasiEnvBuilder.arg]

theorem foldl_env_fields (l : List (String × String)) (b : WasiEnvBuilder) :
    (l.foldl (fun b kv => b.env kv.1 kv.2) b).args = b.args ∧
    (l.foldl (fun b kv => b.env kv.1 kv.2) b).stdinB = b.stdinB ∧
    (l.foldl (fun b kv => b.env kv.1 kv.2) b).stdoutB = b.stdoutB ∧
    (l.foldl (fun b kv => b.env kv.1 kv.2) b).stderrB = b.stderrB := by
  induction l generalizing b with
  | nil => simp
  | cons x xs ih =>
    simp only [List.foldl_cons]
    rcases ih (b.env x.1 x.2) with ⟨h1, h2, h3, h4⟩
    refine ⟨?_, ?_, ?_, ?_⟩
    · rw [h1]; simp [WasiEnvBuilder.env]
    · rw [h2]; simp [WasiEnvBuilder.env]
    · rw [h3]; simp [WasiEnvBuilder.env]
    · rw [h4]; simp [WasiEnvBuilder.env]

theorem bindStdin_fields (w : World) (b : WasiEnvBuilder) (fd : Int) :
    (bindStdin w b fd).1.args = b.args ∧
    (bindStdin w b fd).1.stdoutB = b.stdoutB ∧
    (bindStdin w b fd).1.stderrB = b.stderrB := by
  unfold bindStdin
  split
  · cases FdFile.new w fd <;> simp
  · simp

theorem bindStdout_fields (w : World) (b : WasiEnvBuilder) (fd : Int) :
    (bindStdout w b fd).1.args = b.args ∧
    (bindStdout w b fd).1.stdinB = b.stdinB ∧
    (bindStdout w b fd).1.stderrB = b.stderrB := by
  unfold bindStdout
  split
  · cases FdFile.new w fd <;> simp
  · simp

theorem bindStderr_fields (w : World) (b : WasiEnvBuilder) (fd : Int) :
    (bindStderr w b fd).1.args = b.args ∧
    (bindStderr w b fd).1.stdinB = b.stdinB ∧
    (bindStderr w b fd).1.stdoutB = b.stdoutB := by
  unfold bindStderr
  split
  · cases FdFile.new w fd <;> simp
  · simp

theorem bindStdin_stdinB (w : World) (b : WasiEnvBuilder) (fd : Int)
    (hb : b.stdinB = none) : (bindStdin w b fd).1.stdinB = fdResult w fd := by
  unfold bindStdin fdResult
  split
  · cases FdFile.new w fd <;> simp [hb]
  · simp [hb]

theorem bindStdout_stdoutB (w : World) (b : WasiEnvBuilder) (fd : Int)
    (hb : b.stdoutB = none) : (bindStdout w b fd).1.stdoutB = fdResult w fd := by
  unfold bindStdout fdResult
  split
  · cases FdFile.new w fd <;> simp [hb]
  · simp [hb]

theorem bindStderr_stderrB (w : World) (b : WasiEnvBuilder) (fd : Int)
    (hb : b.stderrB = none) : (bindStderr w b fd).1.stderrB = fdResult w fd := by
  unfold bindStderr fdResult
  split
  · cases FdFile.new w fd <;> simp [hb]
  · simp [hb]

theorem bindStdin_neg (w : World) (b : WasiEnvBuilder) (fd : Int) (h : fd < 0) :
    bindStdin w b fd = (b, []) := by
  unfold bindStdin; rw [if_neg (not_le.mpr h)]

theorem bindStdout_neg (w : World) (b : WasiEnvBuilder) (fd : Int) (h : fd < 0) :
    bindStdout w b fd = (b, []) := by
  unfold bindStdout; rw [if_neg (not_le.mpr h)]

theorem bindStderr_neg (w : World) (b : WasiEnvBuilder) (fd : Int) (h : fd < 0) :
    bindStderr w b fd = (b, []) := by
  unfold bindStderr; rw [if_neg (not_le.mpr h)]

theorem bindStdin_events (w : World) (b : WasiEnvBuilder) (fd : Int) :
    (bindStdin w b fd).2 = [] ∨ (bindStdin w b fd).2 = [Event.dup fd] := by
  unfold bindStdin
  split
  · cases FdFile.new w fd <;> simp
  · simp

theorem bindStdout_events (w : World) (b : WasiEnvBuilder) (fd : Int) :
    (bindStdout w b fd).2 = [] ∨ (bindStdout w b fd).2 = [Event.dup fd] := by
  unfold bindStdout
  split
  · cases FdFile.new w fd <;> simp
  · simp

theorem bindStderr_events (w : World) (b : WasiEnvBuilder) (fd : Int) :
    (bindStderr w b fd).2 = [] ∨ (bindStderr w b fd).2 = [Event.dup fd] := by
  unfold bindStderr
  split
  · cases FdFile.new w fd <;> simp
  · simp

theorem buildSession_args (w : World) (a : List Bytes) (i o e : Int) :
    (buildSession w a i o e).1.args = a := by
  simp only [buildSession]
  rw [(bindStderr_fields w _ e).1, (bindStdout_fields w _ o).1,
    (bindStdin_fields w _ i).1, (foldl_env_fields _ _).1, (foldl_arg_fields _ _).1]
  simp [WasiEnvBuilder.new]

theorem buildSession_stdinB (w : World) (a : List Bytes) (i o e : Int) :
    (buildSession w a i o e).1.stdinB = fdResult w i := by
  simp only [buildSession]
  rw [(bindStderr_fields w _ e).2.1, (bindStdout_fields w _ o).2.1]
  rw [bindStdin_stdinB w _ i]
  rw [(foldl_env_fields _ _).2.1, (foldl_arg_fields _ _).2.1]
  simp [WasiEnvBuilder.new]

theorem buildSession_stdoutB (w : World) (a : List Bytes) (i o e : Int) :
    (buildSession w a i o e).1.stdoutB = fdResult w o := by
  simp only [buildSession]
  rw [(bindStderr_fields w _ e).2.2]
  rw [bindStdout_stdoutB w _ o]
  rw [(bindStdin_fields w _ i).2.1, (foldl_env_fields _ _).2.2.1,
    (foldl_arg_fields _ _).2.2.1]
  simp [WasiEnvBuilder.new]

theorem buildSession_stderrB (w : World) (a : List Bytes) (i o e : Int) :
    (buildSession w a i o e).1.stderrB = fdResult w e := by
  simp only [buildSession]
  rw [bindStderr_stderrB w _ e]
  rw [(bindStdout_fields w _ o).2.2, (bindStdin_fields w _ i).2.2,
    (foldl_env_fields _ _).2.2.2, (foldl_arg_fields _ _).2.2.2]
  simp [WasiEnvBuilder.new]

theorem buildSession_mem_dup (w : World) (a : List Bytes) (i o e : Int) :
    ∀ ev ∈ (buildSession w a i o e).2, ∃ fd, ev = Event.dup fd := by
  intro ev h
  simp only [buildSession, List.mem_append] at h
  rcases h with (h | h) | h
  · rcases bindStdin_events w _ i with he | he <;> rw [he] at h <;> simp at h
    exact ⟨i, h⟩
  · rcases bindStdout_events w _ o with he | he <;> rw [he] at h <;> simp at h
    exact ⟨o, h⟩
  · rcases bindStderr_events w _ e with he | he <;> rw [he] at h <;> simp at h
    exact ⟨e, h⟩

theorem take_eight (l : Bytes) : l.take 8 = l.take 4 ++ (l.drop 4).take 4 := by
  have h := List.take_add l 4 4
  norm_num at h
  exact h

theorem execute_wasm_ok (w : World) (bytes : Bytes) (args : List Bytes)
    (i o e : Int) (hp : pipelineOk w) (hb : headerOk bytes = true) :
    execute_wasm w bytes args i o e =
      (Except.ok (runEntry w).1,
       Event.moduleNew :: (buildSession w args i o e).2 ++ (runEntry w).2) := by
  obtain ⟨h1, h2, h3, h4, h5, h6⟩ := hp
  simp only [headerOk, Bool.and_eq_true, decide_eq_true_eq, beq_iff_eq] at hb
  obtain ⟨⟨hl, hm⟩, hv⟩ := hb
  simp [execute_wasm, execute_wasm_async, h1, h2, h3, h4, h5, h6, hm, hv,
    Nat.not_lt.mpr hl]

theorem decodeArgs_eq (argv : List (Option Bytes)) :
    decodeArgs argv = (argv.filterMap id).filter (fun bs => validUtf8 bs) := by
  induction argv with
  | nil => rfl
  | cons a rest ih =>
    cases a with
    | none => simpa [decodeArgs, List.filterMap_cons, decodeEntry] using ih
    | some bs =>
      by_cases h : validUtf8 bs
      · simp only [decodeArgs, List.filterMap_cons, decodeEntry, h, if_pos,
          id, List.filter_cons] at ih ⊢
        simp [h, ih]
      · simp only [decodeArgs, List.filterMap_cons, decodeEntry, h,
          id, List.filter_cons] at ih ⊢
        simp [h, ih]

theorem decodeArgs_sublist (argv : List (Option Bytes)) :
    (decodeArgs argv).Sublist (argv.filterMap id) := by
  rw [decodeArgs_eq]
  exact List.filter_sublist _

theorem decodeArgs_filter_good (argv : List (Option Bytes)) :
    decodeArgs (argv.filter (fun a => (decodeEntry a).isSome)) = decodeArgs argv := by
  induction argv with
  | nil => rfl
  | cons a rest ih =>
    simp only [decodeArgs] at ih
    cases h : decodeEntry a with
    | none => simp [decodeArgs, List.filter_cons, List.filterMap_cons, h, ih]
    | some b => simp [decodeArgs, List.filter_cons, List.filterMap_cons, h, ih]

theorem decodeArgs_eraseIdx (argv : List (Option Bytes)) (idx : Nat)
    (h : argv[idx]? = some none) :
    decodeArgs (argv.eraseIdx idx) = decodeArgs argv := by
  induction argv generalizing idx with
  | nil => simp at h
  | cons a rest ih =>
    cases idx with
    | zero =>
      simp only [List.getElem?_cons_zero, Option.some.injEq] at h
      subst h
      simp [decodeArgs, List.eraseIdx, List.filterMap_cons, decodeEntry]
    | succ n =>
      simp only [List.getElem?_cons_succ] at h
      have ih' := ih n h
      simp only [decodeArgs] at ih'
      cases hd : decodeEntry a <;>
        simp [decodeArgs, List.eraseIdx, List.filterMap_cons, hd, ih']

/-- `wasmer_execute` on non-null pointers, unfolded one step. -/
theorem wasmer_execute_decode (w : World) (bytes : Bytes)
    (entries : List (Option Bytes)) (i o e : Int) :
    wasmer_execute w (some bytes) (some entries) i o e =
      (match execute_wasm w bytes (decodeArgs entries) i o e with
       | (Except.ok code, evs) => (code, evs)
       | (Except.error er, evs) => (-1, evs ++ [Event.logBoundaryErr er])) := rfl

theorem execute_wasm_congr (w : World) (bytes : Bytes) (a : List Bytes)
    (i o e i' o' e' : Int)
    (h : buildSession w a i o e = buildSession w a i' o' e') :
    execute_wasm w bytes a i o e = execute_wasm w bytes a i' o' e' := by
  unfold execute_wasm execute_wasm_async
  rw [h]

theorem wasmer_execute_fd_congr (w : World) (bytes : Bytes)
    (argv : List (Option Bytes)) (i o e i' o' e' : Int)
    (h : buildSession w (decodeArgs argv) i o e =
      buildSession w (decodeArgs argv) i' o' e') :
    wasmer_execute w (some bytes) (some argv) i o e =
      wasmer_execute w (some bytes) (some argv) i' o' e' := by
  rw [wasmer_execute_decode, wasmer_execute_decode,
    execute_wasm_congr w bytes _ i o e i' o' e' h]

theorem wasmer_execute_argv_congr (w : World) (bytes : Bytes)
    (argv argv' : List (Option Bytes)) (i o e : Int)
    (h : decodeArgs argv = decodeArgs argv') :
    wasmer_execute w (some bytes) (some argv) i o e =
      wasmer_execute w (some bytes) (some argv') i o e := by
  rw [wasmer_execute_decode, wasmer_execute_decode, h]

/-- The whole call on a valid header with every pipeline stage
succeeding: exit code and trace come from the entry dispatch, prefixed
by the interpreter call and the session-building syscalls. -/
theorem wasmer_execute_ok (w : World) (bytes : Bytes)
    (argv : List (Option Bytes)) (i o e : Int)
    (hp : pipelineOk w) (hb : headerOk bytes = true) :
    wasmer_execute w (some bytes) (some argv) i o e =
      ((runEntry w).1,
       Event.moduleNew :: (buildSession w (decodeArgs argv) i o e).2 ++ (runEntry w).2) := by
  rw [wasmer_execute_decode, execute_wasm_ok w bytes (decodeArgs argv) i o e hp hb]

theorem runEntry_start_ok (w : World) (res : List WValue)
    (hs : getFunction w.exports "_start" = true)
    (hr : w.startOutcome = CallOutcome.ok res) :
    runEntry w = (0, [Event.callStart]) := by
  simp [runEntry, hs, hr]

theorem runEntry_start_trap_exit (w : World) (msg : String) (tr : List String)
    (hs : getFunction w.exports "_start" = true)
    (hr : w.startOutcome = CallOutcome.trap msg tr)
    (hx : listHasInfix "exit".data msg.data = true) :
    runEntry w = (0, [Event.callStart]) := by
  simp [runEntry, hs, hr, extract_exit_code, hx]

theorem runEntry_start_trap_other (w : World) (msg : String) (tr : List String)
    (hs : getFunction w.exports "_start" = true)
    (hr : w.startOutcome = CallOutcome.trap msg tr)
    (hx : listHasInfix "exit".data msg.data = false) :
    (runEntry w).1 = 1 ∧ Event.callStart ∈ (runEntry w).2 ∧
    Event.logTrapMsg msg ∈ (runEntry w).2 ∧
    (∀ f ∈ tr, Event.logFrame f ∈ (runEntry w).2) := by
  cases tr with
  | nil => simp [runEntry, hs, hr, extract_exit_code, hx]
  | cons t ts =>
    refine ⟨?_, ?_, ?_, ?_⟩
    · simp [runEntry, hs, hr, extract_exit_code, hx]
    · simp [runEntry, hs, hr, extract_exit_code, hx]
    · simp [runEntry, hs, hr, extract_exit_code, hx]
    · intro f hf
      simp only [List.mem_cons] at hf
      simp [runEntry, hs, hr, extract_exit_code, hx]
      tauto

theorem runEntry_main_ok (w : World) (results : List WValue)
    (hs : getFunction w.exports "_start" = false)
    (hm : getFunction w.exports "main" = true)
    (hr : w.mainOutcome = CallOutcome.ok results) :
    runEntry w = ((match results.head? with
      | some (WValue.i32 c) => c
      | _ => 0), [Event.callMain]) := by
  simp [runEntry, hs, hm, hr]

theorem runEntry_main_trap (w : World) (msg : String) (tr : List String)
    (hs : getFunction w.exports "_start" = false)
    (hm : getFunction w.exports "main" = true)
    (hr : w.mainOutcome = CallOutcome.trap msg tr) :
    (runEntry w).1 = 1 ∧ Event.callMain ∈ (runEntry w).2 ∧
    Event.logTrapMsg msg ∈ (runEntry w).2 ∧
    (∀ f ∈ tr, Event.logFrame f ∈ (runEntry w).2) := by
  cases tr with
  | nil => simp [runEntry, hs, hm, hr]
  | cons t ts =>
    refine ⟨?_, ?_, ?_, ?_⟩
    · simp [runEntry, hs, hm, hr]
    · simp [runEntry, hs, hm, hr]
    · simp [runEntry, hs, hm, hr]
    · intro f hf
      simp only [List.mem_cons] at hf
      simp [runEntry, hs, hm, hr]
      tauto

theorem runEntry_noentry (w : World)
    (hs : getFunction w.exports "_start" = false)
    (hm : getFunction w.exports "main" = false) :
    runEntry w = (-1, [Event.logNoEntry, Event.logExportsHeader] ++
      w.exports.map (fun p => Event.logExport p.1)) := by
  simp [runEntry, hs, hm]

theorem runEntry_start_no_callMain (w : World)
    (hs : getFunction w.exports "_start" = true) :
    Event.callMain ∉ (runEntry w).2 := by
  cases hr : w.startOutcome with
  | ok res => simp [runEntry, hs, hr]
  | trap msg tr =>
    cases hx : extract_exit_code msg with
    | some c => simp [runEntry, hs, hr, hx]
    | none => cases tr <;> simp [runEntry, hs, hr, hx]

theorem runEntry_start_callStart (w : World)
    (hs : getFunction w.exports "_start" = true) :
    Event.callStart ∈ (runEntry w).2 := by
  cases hr : w.startOutcome with
  | ok res => simp [runEntry, hs, hr]
  | trap msg tr =>
    cases hx : extract_exit_code msg with
    | some c => simp [runEntry, hs, hr, hx]
    | none => cases tr <;> simp [runEntry, hs, hr, hx]

theorem runEntry_main_callMain (w : World)
    (hs : getFunction w.exports "_start" = false)
    (hm : getFunction w.exports "main" = true) :
    Event.callMain ∈ (runEntry w).2 := by
  cases hr : w.mainOutcome with
  | ok res => simp [runEntry, hs, hm, hr]
  | trap msg tr => cases tr <;> simp [runEntry, hs, hm, hr]

theorem mem_run_evs (w : World) (argv : List (Option Bytes)) (i o e : Int)
    (x : Event) (hx : x ∈ (runEntry w).2) :
    x ∈ Event.moduleNew :: (buildSession w (decodeArgs argv) i o e).2 ++ (runEntry w).2 :=
  List.mem_cons_of_mem _ (List.mem_append_right _ hx)

theorem notmem_run_evs (w : World) (argv : List (Option Bytes)) (i o e : Int)
    (x : Event) (hdup : ∀ fd, x ≠ Event.dup fd) (hmod : x ≠ Event.moduleNew)
    (hx : x ∉ (runEntry w).2) :
    x ∉ Event.moduleNew :: (buildSession w (decodeArgs argv) i o e).2 ++ (runEntry w).2 := by
  intro hmem
  rcases List.mem_cons.mp hmem with h | h
  · exact hmod h
  · rcases List.mem_append.mp h with h | h
    · rcases buildSession_mem_dup w _ i o e x h with ⟨fd, hfd⟩
      exact hdup fd hfd
    · exact hx h

/-- C1: for every byte sequence shorter than 8 bytes, and for every byte
sequence whose first 8 bytes are not exactly `00 61 73 6D 01 00 00 00`,
`wasmer_execute` (with non-null pointers) returns `-1` and the
interpreter (`Module::new`) is never invoked. -/
theorem C1_invalid_header_rejected (w : World) (bytes : Bytes)
    (argv : List (Option Bytes)) (i o e : Int)
    (h : bytes.length < 8 ∨ bytes.take 8 ≠ wasmHeader) :
    (wasmer_execute w (some bytes) (some argv) i o e).1 = -1 ∧
    Event.moduleNew ∉ (wasmer_execute w (some bytes) (some argv) i o e).2 := by
  have key : ∃ er, execute_wasm w bytes (decodeArgs argv) i o e =
      (Except.error er, []) := by
    cases hr : w.rtBuild with
    | error er => exact ⟨er, by simp [execute_wasm, hr]⟩
    | ok u =>
      by_cases hm : bytes.take 4 = [0x00, 0x61, 0x73, 0x6D]
      · by_cases hv : (bytes.drop 4).take 4 = [0x01, 0x00, 0x00, 0x00]
        · rcases h with hlen | hhdr
          · exact ⟨"Invalid WASM binary: too small",
              by simp [execute_wasm, hr, execute_wasm_async, hlen]⟩
          · exact absurd (by rw [take_eight, hm, hv]; rfl) hhdr
        · by_cases hlen : bytes.length < 8
          · exact ⟨"Invalid WASM binary: too small",
              by simp [execute_wasm, hr, execute_wasm_async, hlen]⟩
          · exact ⟨"Invalid WASM binary: unsupported version",
              by simp [execute_wasm, hr, execute_wasm_async, hlen, hm, hv]⟩
      · by_cases hlen : bytes.length < 8
        · exact ⟨"Invalid WASM binary: too small",
            by simp [execute_wasm, hr, execute_wasm_async, hlen]⟩
        · exact ⟨"Invalid WASM binary: missing magic number",
            by simp [execute_wasm, hr, execute_wasm_async, hlen, hm]⟩
  obtain ⟨er, hkey⟩ := key
  rw [wasmer_execute_decode, hkey]
  simp

/-- Witness for C1 at the empty binary. -/
theorem C1_witness :
    ([] : Bytes).length < 8 ∧
    ((wasmer_execute baseWorld (some []) (some []) (-1) (-1) (-1)).1 = -1 ∧
     Event.moduleNew ∉ (wasmer_execute baseWorld (some []) (some []) (-1) (-1) (-1)).2) :=
  ⟨by decide,
   C1_invalid_header_rejected baseWorld [] [] (-1) (-1) (-1) (Or.inl (by decide))⟩

/-- C4: for every module exporting a `_start` function whose call
returns normally, `execute` returns exit code 0. -/
theorem C4_start_normal_return (w : World) (bytes : Bytes)
    (argv : List (Option Bytes)) (i o e : Int) (res : List WValue)
    (hp : pipelineOk w) (hb : headerOk bytes = true)
    (hs : getFunction w.exports "_start" = true)
    (hr : w.startOutcome = CallOutcome.ok res) :
    (wasmer_execute w (some bytes) (some argv) i o e).1 = 0 := by
  rw [wasmer_execute_ok w bytes argv i o e hp hb,
    runEntry_start_ok w res hs hr]

/-- Witness for C4: `baseWorld` runs `_start` to a normal return. -/
theorem C4_witness :
    headerOk wasmHeader = true ∧
    (wasmer_execute baseWorld (some wasmHeader) (some []) (-1) (-1) (-1)).1 = 0 :=
  ⟨by decide,
   C4_start_normal_return baseWorld wasmHeader [] (-1) (-1) (-1) []
     ⟨rfl, rfl, rfl, rfl, rfl, rfl⟩ (by decide) (by decide) rfl⟩

/-- C5: a null binary pointer or a null argument-array pointer makes
`wasmer_execute` return `-1` immediately, with no decoding, no
validation, no syscalls and no interpreter invocation (the entire
observable trace is the single diagnostic line). -/
theorem C5_null_pointer (w : World) (wasm_bytes : Option Bytes)
    (argv : Option (List (Option Bytes))) (i o e : Int)
    (h : wasm_bytes = none ∨ argv = none) :
    wasmer_execute w wasm_bytes argv i o e = (-1, [Event.logNull]) := by
  rcases h with h | h
  · subst h; cases argv <;> rfl
  · subst h; cases wasm_bytes <;> rfl

/-- Witness for C5 at a null binary pointer. -/
theorem C5_witness :
    ((none : Option Bytes) = none ∨ (some ([] : List (Option Bytes))) = none) ∧
    wasmer_execute baseWorld none (some []) 0 1 2 = (-1, [Event.logNull]) :=
  ⟨Or.inl rfl, C5_null_pointer baseWorld none (some []) 0 1 2 (Or.inl rfl)⟩

/-- C9: every `FdFile`, in every state, reports size and timestamps 0,
succeeds on `unlink` as a no-op, refuses `set_len` with
`PermissionDenied` for every requested size, and reports immediate
readiness from both polls. -/
theorem C9_fdfile_metadata (f : FdFile) (n : Nat) :
    f.size = 0 ∧ f.last_accessed = 0 ∧ f.last_modified = 0 ∧
    f.created_time = 0 ∧
    f.unlink = (f, Except.ok ()) ∧
    f.set_len n = (f, Except.error FsError.PermissionDenied) ∧
    f.poll_read_ready = Poll.Ready (Except.ok 1) ∧
    f.poll_write_ready = Poll.Ready (Except.ok 1) :=
  ⟨rfl, rfl, rfl, rfl, rfl, rfl, rfl, rfl⟩

/-- A module exporting only a `main` function whose call traps with an
exit-like diagnostic text. -/
def mainExitTrapWorld : World :=
  { baseWorld with
    exports := [("main", ExportKind.func)]
    mainOutcome := CallOutcome.trap "call to exit" ["frame0"] }

/-- C2 counterexample: the trap raised by `main` has diagnostic text the
code's own classifier recognises as exit-like (`extract_exit_code`
yields `Some(0)`), yet `execute` returns 1, not 0 — the exit-like
classification is not applied to the reactor-style entry point. -/
theorem C2_counterexample :
    extract_exit_code "call to exit" = some 0 ∧
    (wasmer_execute mainExitTrapWorld (some wasmHeader) (some [])
      (-1) (-1) (-1)).1 = 1 := by
  constructor
  · decide
  · decide

/-- C2 (amended): the trap classification applies only to the
command-style `_start` entry point. A `_start` trap whose diagnostic
text contains `"exit"` yields exit code 0; any other `_start` trap
yields exit code 1 with the diagnostic message and every stack trace
frame logged. A trap from the reactor-style `main` entry point always
yields exit code 1 with the diagnostic message and every stack trace
frame logged, regardless of its text. -/
theorem C2_trap_classification (w : World) (bytes : Bytes)
    (argv : List (Option Bytes)) (i o e : Int)
    (hp : pipelineOk w) (hb : headerOk bytes = true) :
    (∀ msg tr, getFunction w.exports "_start" = true →
      w.startOutcome = CallOutcome.trap msg tr →
      (listHasInfix "exit".data msg.data = true →
        (wasmer_execute w (some bytes) (some argv) i o e).1 = 0) ∧
      (listHasInfix "exit".data msg.data = false →
        (wasmer_execute w (some bytes) (some argv) i o e).1 = 1 ∧
        Event.logTrapMsg msg ∈ (wasmer_execute w (some bytes) (some argv) i o e).2 ∧
        ∀ f ∈ tr, Event.logFrame f ∈ (wasmer_execute w (some bytes) (some argv) i o e).2)) ∧
    (∀ msg tr, getFunction w.exports "_start" = false →
      getFunction w.exports "main" = true →
      w.mainOutcome = CallOutcome.trap msg tr →
      (wasmer_execute w (some bytes) (some argv) i o e).1 = 1 ∧
      Event.logTrapMsg msg ∈ (wasmer_execute w (some bytes) (some argv) i o e).2 ∧
      ∀ f ∈ tr, Event.logFrame f ∈ (wasmer_execute w (some bytes) (some argv) i o e).2) := by
  have hw := wasmer_execute_ok w bytes argv i o e hp hb
  constructor
  · intro msg tr hs ht
    constructor
    · intro hx
      rw [hw, runEntry_start_trap_exit w msg tr hs ht hx]
    · intro hx
      obtain ⟨h1, _h2, h3, h4⟩ := runEntry_start_trap_other w msg tr hs ht hx
      refine ⟨?_, ?_, ?_⟩
      · rw [hw]; exact h1
      · rw [hw]; exact mem_run_evs w argv i o e _ h3
      · intro f hf
        rw [hw]; exact mem_run_evs w argv i o e _ (h4 f hf)
  · intro msg tr hs hm ht
    obtain ⟨h1, _h2, h3, h4⟩ := runEntry_main_trap w msg tr hs hm ht
    refine ⟨?_, ?_, ?_⟩
    · rw [hw]; exact h1
    · rw [hw]; exact mem_run_evs w argv i o e _ h3
    · intro f hf
      rw [hw]; exact mem_run_evs w argv i o e _ (h4 f hf)

/-- A module whose `_start` traps with a non-exit diagnostic. -/
def startTrapWorld : World :=
  { baseWorld with
    startOutcome := CallOutcome.trap "unreachable executed" ["frame0"] }

/-- Witness for the amended C2: a genuine `_start` failure returns 1 and
logs the message and the frame. -/
theorem C2_witness :
    headerOk wasmHeader = true ∧
    ((wasmer_execute startTrapWorld (some wasmHeader) (some []) (-1) (-1) (-1)).1 = 1 ∧
     Event.logTrapMsg "unreachable executed" ∈
       (wasmer_execute startTrapWorld (some wasmHeader) (some []) (-1) (-1) (-1)).2 ∧
     ∀ f ∈ ["frame0"], Event.logFrame f ∈
       (wasmer_execute startTrapWorld (some wasmHeader) (some []) (-1) (-1) (-1)).2) :=
  ⟨by decide,
   ((C2_trap_classification startTrapWorld wasmHeader [] (-1) (-1) (-1)
       ⟨rfl, rfl, rfl, rfl, rfl, rfl⟩ (by decide)).1
     "unreachable executed" ["frame0"] (by decide) rfl).2 (by decide)⟩

/-- A module exporting only `main`, returning the numeric value 5 as an
`i64`. -/
def mainI64World : World :=
  { baseWorld with
    exports := [("main", ExportKind.func)]
    mainOutcome := CallOutcome.ok [WValue.i64 5] }

/-- C3 counterexample: `main` returns the numeric first result `i64 5`;
the claim requires `execute` to return 5, but the code only accepts
`Value::I32` and returns 0. -/
theorem C3_counterexample :
    mainI64World.mainOutcome = CallOutcome.ok [WValue.i64 5] ∧
    (wasmer_execute mainI64World (some wasmHeader) (some [])
      (-1) (-1) (-1)).1 = 0 ∧
    (wasmer_execute mainI64World (some wasmHeader) (some [])
      (-1) (-1) (-1)).1 ≠ 5 := by
  refine ⟨rfl, by decide, by decide⟩

/-- C3 (amended): when `main` (with no `_start`) returns without
trapping, the exit code is the first result value if it is a 32-bit
integer, and 0 otherwise — including when there is no result and when
the first result is of any other type, numeric (`i64`, floats) or not. -/
theorem C3_main_return_code (w : World) (bytes : Bytes)
    (argv : List (Option Bytes)) (i o e : Int) (results : List WValue)
    (hp : pipelineOk w) (hb : headerOk bytes = true)
    (hs : getFunction w.exports "_start" = false)
    (hm : getFunction w.exports "main" = true)
    (hr : w.mainOutcome = CallOutcome.ok results) :
    (wasmer_execute w (some bytes) (some argv) i o e).1 =
      (match results.head? with
       | some (WValue.i32 c) => c
       | _ => 0) := by
  rw [wasmer_execute_ok w bytes argv i o e hp hb,
    runEntry_main_ok w results hs hm hr]

/-- A module exporting only `main(): i32` returning 7. -/
def mainI32World : World :=
  { baseWorld with
    exports := [("main", ExportKind.func)]
    mainOutcome := CallOutcome.ok [WValue.i32 7] }

/-- Witness for the amended C3: `main(): i32` returning 7 makes
`execute` return 7. -/
theorem C3_witness :
    (wasmer_execute mainI32World (some wasmHeader) (some [])
      (-1) (-1) (-1)).1 = 7 := by
  have h := C3_main_return_code mainI32World wasmHeader [] (-1) (-1) (-1)
    [WValue.i32 7] ⟨rfl, rfl, rfl, rfl, rfl, rfl⟩ (by decide) (by decide)
    (by decide) rfl
  simpa using h

/-- C6: a negative descriptor leaves its stream unbound (the builder
keeps no override and no `dup` syscall fires for it), each stream's
binding is a function of its own descriptor only, and replacing one
negative descriptor by another changes nothing about the session or the
call. -/
theorem C6_negative_fd_unbound (w : World) (a : List Bytes) (bytes : Bytes)
    (argv : List (Option Bytes)) (i o e i' o' e' : Int) :
    ((buildSession w a i o e).1.stdinB = fdResult w i ∧
     (buildSession w a i o e).1.stdoutB = fdResult w o ∧
     (buildSession w a i o e).1.stderrB = fdResult w e) ∧
    (i < 0 → (buildSession w a i o e).1.stdinB = none ∧
      (i' < 0 → buildSession w a i o e = buildSession w a i' o e ∧
        wasmer_execute w (some bytes) (some argv) i o e =
          wasmer_execute w (some bytes) (some argv) i' o e)) ∧
    (o < 0 → (buildSession w a i o e).1.stdoutB = none ∧
      (o' < 0 → buildSession w a i o e = buildSession w a i o' e ∧
        wasmer_execute w (some bytes) (some argv) i o e =
          wasmer_execute w (some bytes) (some argv) i o' e)) ∧
    (e < 0 → (buildSession w a i o e).1.stderrB = none ∧
      (e' < 0 → buildSession w a i o e = buildSession w a i o e' ∧
        wasmer_execute w (some bytes) (some argv) i o e =
          wasmer_execute w (some bytes) (some argv) i o e')) := by
  refine ⟨⟨buildSession_stdinB w a i o e, buildSession_stdoutB w a i o e,
    buildSession_stderrB w a i o e⟩, ?_, ?_, ?_⟩
  · intro hi
    refine ⟨?_, ?_⟩
    · rw [buildSession_stdinB]
      simp [fdResult, not_le.mpr hi]
    · intro hi'
      have hbs : buildSession w a i o e = buildSession w a i' o e := by
        simp only [buildSession]
        rw [bindStdin_neg w _ i hi, bindStdin_neg w _ i' hi']
      have hbs2 : buildSession w (decodeArgs argv) i o e =
          buildSession w (decodeArgs argv) i' o e := by
        simp only [buildSession]
        rw [bindStdin_neg w _ i hi, bindStdin_neg w _ i' hi']
      exact ⟨hbs, wasmer_execute_fd_congr w bytes argv i o e i' o e hbs2⟩
  · intro ho
    refine ⟨?_, ?_⟩
    · rw [buildSession_stdoutB]
      simp [fdResult, not_le.mpr ho]
    · intro ho'
      have hbs : buildSession w a i o e = buildSession w a i o' e := by
        simp only [buildSession]
        rw [bindStdout_neg w _ o ho, bindStdout_neg w _ o' ho']
      have hbs2 : buildSession w (decodeArgs argv) i o e =
          buildSession w (decodeArgs argv) i o' e := by
        simp only [buildSession]
        rw [bindStdout_neg w _ o ho, bindStdout_neg w _ o' ho']
      exact ⟨hbs, wasmer_execute_fd_congr w bytes argv i o e i o' e hbs2⟩
  · intro he
    refine ⟨?_, ?_⟩
    · rw [buildSession_stderrB]
      simp [fdResult, not_le.mpr he]
    · intro he'
      have hbs : buildSession w a i o e = buildSession w a i o e' := by
        simp only [buildSession]
        rw [bindStderr_neg w _ e he, bindStderr_neg w _ e' he']
      have hbs2 : buildSession w (decodeArgs argv) i o e =
          buildSession w (decodeArgs argv) i o e' := by
        simp only [buildSession]
        rw [bindStderr_neg w _ e he, bindStderr_neg w _ e' he']
      exact ⟨hbs, wasmer_execute_fd_congr w bytes argv i o e i o e' hbs2⟩

/-- Witness for C6: all three descriptors negative leave all three
streams unbound, and swapping one negative value for another changes
nothing. -/
theorem C6_witness :
    (buildSession baseWorld [] (-1) (-2) (-3)).1.stdinB = none ∧
    (buildSession baseWorld [] (-1) (-2) (-3)).1.stdoutB = none ∧
    (buildSession baseWorld [] (-1) (-2) (-3)).1.stderrB = none ∧
    wasmer_execute baseWorld (some wasmHeader) (some []) (-1) (-2) (-3) =
      wasmer_execute baseWorld (some wasmHeader) (some []) (-4) (-2) (-3) := by
  have h := C6_negative_fd_unbound baseWorld [] wasmHeader []
    (-1) (-2) (-3) (-4) (-5) (-6)
  exact ⟨(h.2.1 (by decide)).1, (h.2.2.1 (by decide)).1, (h.2.2.2 (by decide)).1,
    ((h.2.1 (by decide)).2 (by decide)).2⟩

/-- C7: entries that are not valid UTF-8 are skipped without failing the
call — the argument list handed to the session builder is exactly the
in-order subsequence of entries that decode, and the call behaves as if
the undecodable entries were absent. -/
theorem C7_invalid_utf8_skipped (w : World) (bytes : Bytes)
    (argv : List (Option Bytes)) (i o e : Int) :
    (buildSession w (decodeArgs argv) i o e).1.args = decodeArgs argv ∧
    decodeArgs argv = (argv.filterMap id).filter (fun bs => validUtf8 bs) ∧
    (decodeArgs argv).Sublist (argv.filterMap id) ∧
    wasmer_execute w (some bytes) (some argv) i o e =
      wasmer_execute w (some bytes)
        (some (argv.filter (fun a2 => (decodeEntry a2).isSome))) i o e :=
  ⟨buildSession_args w _ i o e, decodeArgs_eq argv, decodeArgs_sublist argv,
   wasmer_execute_argv_congr w bytes argv _ i o e (decodeArgs_filter_good argv).symm⟩

/-- Witness for C7: with `argc = 3` and entry 2 malformed (`0xFF` is not
valid UTF-8) the guest sees exactly the other two arguments, in order. -/
theorem C7_witness :
    decodeArgs [some [104], some [0xFF], some [105]] = [[104], [105]] ∧
    (decodeArgs [some [104], some [0xFF], some [105]]).length = 2 ∧
    (buildSession baseWorld (decodeArgs [some [104], some [0xFF], some [105]]) 0 1 2).1.args =
      decodeArgs [some [104], some [0xFF], some [105]] :=
  ⟨by decide, by decide,
   (C7_invalid_utf8_skipped baseWorld wasmHeader
     [some [104], some [0xFF], some [105]] 0 1 2).1⟩

/-- C8: entry resolution tries `_start` first (when a `_start` function
export exists, it is called and `main` never is); it falls back to
`main` only otherwise; and with neither, the call returns -1 and logs
every export name. -/
theorem C8_entry_resolution (w : World) (bytes : Bytes)
    (argv : List (Option Bytes)) (i o e : Int)
    (hp : pipelineOk w) (hb : headerOk bytes = true) :
    (getFunction w.exports "_start" = true →
      Event.callStart ∈ (wasmer_execute w (some bytes) (some argv) i o e).2 ∧
      Event.callMain ∉ (wasmer_execute w (some bytes) (some argv) i o e).2) ∧
    (getFunction w.exports "_start" = false →
      getFunction w.exports "main" = true →
      Event.callMain ∈ (wasmer_execute w (some bytes) (some argv) i o e).2) ∧
    (getFunction w.exports "_start" = false →
      getFunction w.exports "main" = false →
      (wasmer_execute w (some bytes) (some argv) i o e).1 = -1 ∧
      ∀ p ∈ w.exports,
        Event.logExport p.1 ∈ (wasmer_execute w (some bytes) (some argv) i o e).2) := by
  have hw := wasmer_execute_ok w bytes argv i o e hp hb
  refine ⟨?_, ?_, ?_⟩
  · intro hs
    constructor
    · rw [hw]
      exact mem_run_evs w argv i o e _ (runEntry_start_callStart w hs)
    · rw [hw]
      exact notmem_run_evs w argv i o e _ (fun fd h => Event.noConfusion h)
        (fun h => Event.noConfusion h) (runEntry_start_no_callMain w hs)
  · intro hs hm
    rw [hw]
    exact mem_run_evs w argv i o e _ (runEntry_main_callMain w hs hm)
  · intro hs hm
    constructor
    · rw [hw, runEntry_noentry w hs hm]
    · intro p hp2
      rw [hw]
      refine mem_run_evs w argv i o e _ ?_
      rw [runEntry_noentry w hs hm]
      simp only [List.mem_append]
      right
      exact List.mem_map_of_mem _ hp2

/-- A module exporting both a `_start` and a `main` function. -/
def bothEntriesWorld : World :=
  { baseWorld with
    exports := [("_start", ExportKind.func), ("main", ExportKind.func)] }

/-- Witness for C8: with both exports present, `_start` is called and
`main` is not. -/
theorem C8_witness :
    getFunction bothEntriesWorld.exports "_start" = true ∧
    (Event.callStart ∈
       (wasmer_execute bothEntriesWorld (some wasmHeader) (some []) (-1) (-1) (-1)).2 ∧
     Event.callMain ∉
       (wasmer_execute bothEntriesWorld (some wasmHeader) (some []) (-1) (-1) (-1)).2) :=
  ⟨by decide,
   (C8_entry_resolution bothEntriesWorld wasmHeader [] (-1) (-1) (-1)
     ⟨rfl, rfl, rfl, rfl, rfl, rfl⟩ (by decide)).1 (by decide)⟩

/-- C10: a null pointer at position `idx` of the argument array is
skipped silently — the call is identical to the call with that entry
removed, and the effective argument list is the in-order subsequence of
entries that are both non-null and valid UTF-8. -/
theorem C10_null_entry_skipped (w : World) (bytes : Bytes)
    (argv : List (Option Bytes)) (idx : Nat) (i o e : Int)
    (h : argv[idx]? = some none) :
    wasmer_execute w (some bytes) (some argv) i o e =
      wasmer_execute w (some bytes) (some (argv.eraseIdx idx)) i o e ∧
    (buildSession w (decodeArgs argv) i o e).1.args =
      (argv.filterMap id).filter (fun bs => validUtf8 bs) := by
  constructor
  · exact wasmer_execute_argv_congr w bytes argv _ i o e
      (decodeArgs_eraseIdx argv idx h).symm
  · rw [buildSession_args, decodeArgs_eq]

/-- Witness for C10 at a 2-entry array whose second entry is null. -/
theorem C10_witness :
    ([some [97], none] : List (Option Bytes))[1]? = some none ∧
    (wasmer_execute baseWorld (some wasmHeader) (some [some [97], none])
       (-1) (-1) (-1) =
     wasmer_execute baseWorld (some wasmHeader)
       (some (([some [97], none] : List (Option Bytes)).eraseIdx 1)) (-1) (-1) (-1) ∧
     (buildSession baseWorld (decodeArgs [some [97], none]) (-1) (-1) (-1)).1.args =
       (([some [97], none] : List (Option Bytes)).filterMap id).filter
         (fun bs => validUtf8 bs)) :=
  ⟨by decide,
   C10_null_entry_skipped baseWorld wasmHeader [some [97], none] 1
     (-1) (-1) (-1) (by decide)⟩
